import Mathlib

/-!
Verification development for the `frontend-data-transform-engine` repository:
a shallow embedding of the HTTP client (`src/lib/api.ts`), the file-selection
widget (`FileDropZone`), the submit button (`SubmitButton`), the page
controller (`Home`) and the health proxy route (`src/app/api/health/route.ts`),
together with theorems settling the frozen claims about them.

JavaScript strings are modelled as Lean `String`s (lists of characters);
`String.prototype.toLowerCase` is modelled by mapping `Char.toLower`
(ASCII lowering), `lastIndexOf`/`slice` with their JS index semantics.
-/

namespace Engine

/-! ### JS string primitives -/

/-- `s.toLowerCase()`. -/
def jsToLower (s : String) : String := ⟨s.data.map Char.toLower⟩

/-- Helper for `lastIndexOf` on a character list: index of the last
occurrence of `c`, or `-1` when absent (JS convention). -/
def lastIndexOfAux (c : Char) : List Char → Int
  | [] => -1
  | a :: as =>
    let r := lastIndexOfAux c as
    if 0 ≤ r then r + 1 else if a = c then 0 else -1

/-- `s.lastIndexOf(c)` for a single-character needle. -/
def jsLastIndexOf (s : String) (c : Char) : Int := lastIndexOfAux c s.data

/-- `slice(i)` on a character list with JS semantics: a negative start
counts from the end (clamped at 0), a nonnegative start is clamped at the
length. -/
def listSliceFrom (l : List Char) (i : Int) : List Char :=
  let n : Int := l.length
  let start : Int := if i < 0 then max (n + i) 0 else min i n
  l.drop start.toNat

/-- `s.slice(i)`. -/
def jsSliceFrom (s : String) (i : Int) : String := ⟨listSliceFrom s.data i⟩

/-! ### File-selection widget (`FileDropZone`, in page.test.tsx lines 238-453) -/

/-- The widget's state enum (`DropZoneState` in the source). -/
inductive DropZoneState
  | idle
  | dragging
  | selected
  | error
deriving DecidableEq, Repr

/-- A DOM `File`: only its `name` matters to this component. -/
structure JsFile where
  name : String
deriving DecidableEq, Repr

/-- The component's mutable state: `state`, `errorMessage`, `fileName`. -/
structure DropZoneModel where
  state : DropZoneState
  errorMessage : String
  fileName : String
deriving DecidableEq, Repr

/-- The initial widget state (`useState` initialisers). -/
def initialDropZone : DropZoneModel := ⟨.idle, "", ""⟩

/-- Callback invocations made while handling one event, in order:
`onFileSelected` receives a file or `null`, `onError` receives an
`Error` whose `message` we record. -/
structure DropZoneCalls where
  onFileSelected : List (Option JsFile) := []
  onError : List String := []
deriving DecidableEq, Repr

/-- `isValidFile` from the source:
`file.name.toLowerCase().slice(file.name.lastIndexOf(".")) === accept`. -/
def isValidFile (accept : String) (file : JsFile) : Bool :=
  jsSliceFrom (jsToLower file.name) (jsLastIndexOf file.name '.') == accept

/-- The validation-failure message `Only ${accept} files are accepted`. -/
def dropErrorMsg (accept : String) : String :=
  "Only " ++ accept ++ " files are accepted"

/-- `handleFileSelect`: clear the error message, record the display name,
move to `selected`, notify `onFileSelected` with the file. -/
def handleFileSelect (m : DropZoneModel) (file : JsFile) :
    DropZoneModel × DropZoneCalls :=
  ({ m with errorMessage := "", fileName := file.name, state := .selected },
   { onFileSelected := [some file] })

/-- `clearSelection`: clear the display name, move to `idle`, notify
`onFileSelected` with `null`. -/
def clearSelection (m : DropZoneModel) : DropZoneModel × DropZoneCalls :=
  ({ m with fileName := "", state := .idle }, { onFileSelected := [none] })

/-- `handleDragEnter`: unconditionally move to `dragging`. -/
def handleDragEnter (m : DropZoneModel) : DropZoneModel × DropZoneCalls :=
  ({ m with state := .dragging }, {})

/-- `handleDragOver`: prevent default only; no state change. -/
def handleDragOver (m : DropZoneModel) : DropZoneModel × DropZoneCalls :=
  (m, {})

/-- `handleDragLeave`: unconditionally move to `idle`. -/
def handleDragLeave (m : DropZoneModel) : DropZoneModel × DropZoneCalls :=
  ({ m with state := .idle }, {})

/-- `handleDrop`: empty drop returns to `idle`; otherwise only the first
file is considered — invalid extension moves to `error`, sets the message
and notifies `onError`; a valid file goes through `handleFileSelect`. -/
def handleDrop (accept : String) (m : DropZoneModel) (files : List JsFile) :
    DropZoneModel × DropZoneCalls :=
  match files with
  | [] => ({ m with state := .idle }, {})
  | file :: _ =>
    if ¬ isValidFile accept file then
      ({ m with state := .error, errorMessage := dropErrorMsg accept },
       { onError := [dropErrorMsg accept] })
    else
      handleFileSelect m file

/-- The hidden file input: its `files` list and its `value` property. -/
structure FileInput where
  files : List JsFile
  value : String
deriving DecidableEq, Repr

/-- `handleFileInputChange`: no files is a no-op; an invalid first file
moves to `error` (the input's `value` is left untouched — the early return
skips the reset); a valid first file is selected and then
`e.target.value = ""` resets the input. -/
def handleFileInputChange (accept : String) (m : DropZoneModel)
    (input : FileInput) : DropZoneModel × FileInput × DropZoneCalls :=
  match input.files with
  | [] => (m, input, {})
  | file :: _ =>
    if ¬ isValidFile accept file then
      ({ m with state := .error, errorMessage := dropErrorMsg accept },
       input,
       { onError := [dropErrorMsg accept] })
    else
      let (m1, calls) := handleFileSelect m file
      (m1, { input with value := "" }, calls)

/-- The widget's Escape handler: clears only while `selected`. -/
def handleEscapeKey (m : DropZoneModel) : DropZoneModel × DropZoneCalls :=
  if m.state = .selected then clearSelection m else (m, {})

/-- Spec-side acceptance criterion, from the spec's words: the file's name
ends, compared case-insensitively, with the configured extension. -/
def endsWithCI (name ext : String) : Bool :=
  (jsToLower ext).data.isSuffixOf (jsToLower name).data

/-! ### Submit button (`SubmitButton.tsx`) -/

/-- `SubmitButtonState` / the page's `UploadStatus`: the same five-value
enum is used by both files. -/
inductive UploadStatus
  | disabled
  | ready
  | uploading
  | success
  | error
deriving DecidableEq, Repr

/-- `isDisabled` in `SubmitButton`:
`state === "disabled" || state === "uploading"`; the button element is
rendered with `disabled={isDisabled}`. -/
def submitButtonIsDisabled (s : UploadStatus) : Bool :=
  s == .disabled || s == .uploading

/-- DOM semantics: a disabled button never fires its `onClick` callback, an
enabled one does. -/
def submitButtonClickFires (s : UploadStatus) : Bool :=
  !(submitButtonIsDisabled s)

/-! ### Page controller (`Home` in SubmitButton.tsx lines 164-341)

The upload result type is abstracted as `R` (`StockDataResult` in the
source carries floating-point fields none of the claims inspect). -/

/-- The controller's upload-related state: `selectedFile`, `uploadStatus`,
`uploadMessage`, `result`. -/
structure HomeModel (R : Type) where
  selectedFile : Option JsFile
  uploadStatus : UploadStatus
  uploadMessage : String
  result : Option R
deriving DecidableEq, Repr

/-- The `useState` initialisers of `Home`. -/
def initialHome (R : Type) : HomeModel R := ⟨none, .disabled, "", none⟩

/-- `handleFileSelected(file)`: store the file, set the status to `ready`
when a file is present and `disabled` otherwise, clear the message and the
result. -/
def handleFileSelected {R : Type} (m : HomeModel R) (file : Option JsFile) :
    HomeModel R :=
  { m with
    selectedFile := file
    uploadStatus := if file.isSome then .ready else .disabled
    uploadMessage := ""
    result := none }

/-- The synchronous prefix of `handleUpload`: return early when no file is
selected; otherwise set the status to `uploading`, clear the result, and
issue the upload call (the returned `Bool` records whether `uploadFile`
was called). -/
def handleUploadStart {R : Type} (m : HomeModel R) : HomeModel R × Bool :=
  match m.selectedFile with
  | none => (m, false)
  | some _ => ({ m with uploadStatus := .uploading, result := none }, true)

/-- The `try` continuation of `handleUpload`: on a resolved upload set the
status to `success`, store the response, clear the message. -/
def handleUploadSuccess {R : Type} (m : HomeModel R) (response : R) :
    HomeModel R :=
  { m with uploadStatus := .success, result := some response,
           uploadMessage := "" }

/-- The thrown value's message: `some msg` when `err instanceof Error`
(whose `message` is `msg`), `none` when a non-`Error` value was thrown.
`const error = err instanceof Error ? err : new Error("Upload failed")`. -/
def uploadErrorMessage (err : Option String) : String :=
  match err with
  | some msg => msg
  | none => "Upload failed"

/-- The `catch` branch of `handleUpload`: set the status to `error` and
store `` `Error: ${error.message}` ``; `result` is not touched. -/
def handleUploadFailure {R : Type} (m : HomeModel R) (err : Option String) :
    HomeModel R :=
  { m with uploadStatus := .error,
           uploadMessage := "Error: " ++ uploadErrorMessage err }

/-- The global Enter-keydown effect: call `handleUpload` only when the
status is `ready` or `error`. -/
def handleEnterKey {R : Type} (m : HomeModel R) : HomeModel R × Bool :=
  if m.uploadStatus = .ready ∨ m.uploadStatus = .error then
    handleUploadStart m
  else
    (m, false)

/-- A click on the rendered submit button: the DOM delivers the click to
`handleUpload` only when the button is not rendered disabled. -/
def handleSubmitClick {R : Type} (m : HomeModel R) : HomeModel R × Bool :=
  if submitButtonClickFires m.uploadStatus then handleUploadStart m
  else (m, false)

/-- `Home`'s `onError` prop of the drop zone:
`setUploadMessage(`Error: ${error.message}`)`. -/
def handleDropZoneError {R : Type} (m : HomeModel R) (msg : String) :
    HomeModel R :=
  { m with uploadMessage := "Error: " ++ msg }

/-- Replay a batch of widget callbacks against the controller, the way
`Home` wires them: `onFileSelected` is `handleFileSelected` and `onError`
sets the error message. -/
def applyDropZoneCalls {R : Type} (m : HomeModel R) (calls : DropZoneCalls) :
    HomeModel R :=
  calls.onError.foldl handleDropZoneError
    (calls.onFileSelected.foldl handleFileSelected m)

/-! ### JSON values (bodies exchanged with the backend) -/

/-- A JSON value, for response bodies. Numbers are not needed by any
claim, so an integer field keeps the type decidable. -/
inductive Json
  | null
  | bool (b : Bool)
  | num (n : Int)
  | str (s : String)
  | arr (elems : List Json)
  | obj (fields : List (String × Json))

/-! ### HTTP client (`src/lib/api.ts`, src/unnamed/part_002) -/

/-- A resolved `fetch` response as the client observes it: `ok`, `status`,
what `response.text()` does (`none`: it rejects), and what
`response.json()` does (`Except.error`: it rejects). -/
structure ClientResponse where
  ok : Bool
  status : Nat
  textResult : Option String
  jsonResult : Except String Json

/-- The promise produced by an API call: the parsed body, a thrown
`ApiError` with `{message, status}`, or the rejection of `response.json()`
on the success path. -/
inductive ApiCallResult
  | success (body : Json)
  | apiError (message : String) (status : Nat)
  | jsonFailure (e : String)

/-- `handleResponse`: on a non-ok response, read the body as text (falling
back to `"Request failed"` when reading fails) and throw
`ApiError(message, status)`; otherwise return `response.json()`. -/
def handleResponse (response : ClientResponse) : ApiCallResult :=
  if !response.ok then
    let message := response.textResult.getD "Request failed"
    .apiError message response.status
  else
    match response.jsonResult with
    | .ok body => .success body
    | .error e => .jsonFailure e

/-- The request `fetch` is given: URL, method, whether the JSON
content-type header is set explicitly. -/
structure HttpRequest where
  url : String
  method : String
  jsonContentType : Bool
  formFile : Option JsFile
deriving DecidableEq, Repr

/-- `apiGet(path)`: GET against `API_URL + path` with the JSON
content-type header; the response goes through `handleResponse`. -/
def apiGet (apiUrl path : String) (response : ClientResponse) :
    HttpRequest × ApiCallResult :=
  (⟨apiUrl ++ path, "GET", true, none⟩, handleResponse response)

/-- `apiPost(path, data)`: POST against `API_URL + path` with the JSON
content-type header and a JSON body; same response handling. -/
def apiPost (apiUrl path : String) (response : ClientResponse) :
    HttpRequest × ApiCallResult :=
  (⟨apiUrl ++ path, "POST", true, none⟩, handleResponse response)

/-- `uploadFile(path, file)`: POST a multipart form against
`API_URL + path` with no explicit content-type; same response handling. -/
def uploadFile (apiUrl path : String) (file : JsFile)
    (response : ClientResponse) : HttpRequest × ApiCallResult :=
  (⟨apiUrl ++ path, "POST", false, some file⟩, handleResponse response)

/-! ### Health proxy route (`src/app/api/health/route.ts`) -/

/-- What `fetch(API_URL + "/")` does inside the route's `try`: the fetch
promise rejects, or resolves with a response whose `.json()` either
resolves with a body or rejects. -/
structure BackendResponse where
  ok : Bool
  status : Nat
  jsonResult : Option Json

inductive FetchOutcome
  | reject
  | resolve (response : BackendResponse)

/-- An HTTP reply produced by the route handler. -/
structure RouteReply where
  httpStatus : Nat
  body : Json

/-- The success envelope of the health route. -/
def healthSuccessBody (backendResponse : Json) : Json :=
  .obj [("status", .str "success"),
        ("message", .str "Backend data fetched successfully"),
        ("backend_response", backendResponse)]

/-- The error envelope of the health route. -/
def healthErrorBody : Json :=
  .obj [("status", .str "error"),
        ("message", .str "Failed to fetch data from backend")]

/-- The `GET` handler of `route.ts`: any rejection inside the `try` (the
fetch itself or `response.json()`) falls into the `catch` and yields the
503 error envelope; otherwise the success envelope is returned with the
default 200 status. The handler never reads `response.ok` or
`response.status`. -/
def healthGET (outcome : FetchOutcome) : RouteReply :=
  match outcome with
  | .reject => ⟨503, healthErrorBody⟩
  | .resolve r =>
    match r.jsonResult with
    | none => ⟨503, healthErrorBody⟩
    | some data => ⟨200, healthSuccessBody data⟩

/-! ### Helper lemmas on the string primitives -/

lemma ofNat_shift_ne_dot (n : Nat) (h1 : 65 ≤ n) (h2 : n ≤ 90) :
    Char.ofNat (n + 32) ≠ '.' := by
  interval_cases n <;> decide

lemma toLower_eq_dot_iff (c : Char) : Char.toLower c = '.' ↔ c = '.' := by
  constructor
  · intro h
    unfold Char.toLower at h
    by_cases hb : c.toNat ≥ 65 ∧ c.toNat ≤ 90
    · rw [if_pos hb] at h
      exact absurd h (ofNat_shift_ne_dot c.toNat hb.1 hb.2)
    · rwa [if_neg hb] at h
  · rintro rfl; decide

lemma lastIndexOfAux_nonneg_iff (c : Char) (l : List Char) :
    0 ≤ lastIndexOfAux c l ↔ c ∈ l := by
  induction l with
  | nil => simp [lastIndexOfAux]
  | cons a as ih =>
    simp only [lastIndexOfAux, List.mem_cons]
    by_cases h : 0 ≤ lastIndexOfAux c as
    · rw [if_pos h]
      simp only [ih.mp h, or_true, iff_true]
      omega
    · rw [if_neg h]
      by_cases hac : a = c
      · simp [hac]
      · rw [if_neg hac]
        simp only [show ¬ (0:Int) ≤ -1 by omega, false_iff]
        rw [not_or]
        exact ⟨fun hca => hac hca.symm, fun hm => h (ih.mpr hm)⟩

lemma listSliceFrom_subset (l : List Char) (i : Int) : listSliceFrom l i ⊆ l :=
  List.drop_subset _ _

lemma listSliceFrom_zero (l : List Char) : listSliceFrom l 0 = l := by
  simp only [listSliceFrom]
  rw [if_neg (by omega)]
  have h : ((0:Int) ⊓ (l.length : Int)).toNat = 0 := by omega
  rw [h, List.drop_zero]

lemma listSliceFrom_cons (c : Char) (l : List Char) (r : Int) (hr : 0 ≤ r) :
    listSliceFrom (c :: l) (r + 1) = listSliceFrom l r := by
  simp only [listSliceFrom]
  rw [if_neg (by omega), if_neg (by omega)]
  have h : ((r + 1) ⊓ ((c :: l).length : Int)).toNat =
      (r ⊓ (l.length : Int)).toNat + 1 := by
    simp only [List.length_cons]
    push_cast
    omega
  rw [h, List.drop_succ_cons]

lemma lastIndexOfAux_map_toLower (l : List Char) :
    lastIndexOfAux '.' (l.map Char.toLower) = lastIndexOfAux '.' l := by
  induction l with
  | nil => rfl
  | cons a as ih =>
    simp only [List.map_cons, lastIndexOfAux, ih, toLower_eq_dot_iff]

/-- The heart of the extension check: for a needle of the form `'.' :: t`
with no further dot, slicing the haystack from its last dot yields the
needle exactly when the needle is a suffix of the haystack. -/
lemma listSliceFrom_lastIndexOf_eq_iff (t : List Char) (ht : '.' ∉ t) :
    ∀ L : List Char,
      listSliceFrom L (lastIndexOfAux '.' L) = '.' :: t ↔ ('.' :: t) <:+ L := by
  intro L
  induction L with
  | nil =>
    simp only [lastIndexOfAux, List.suffix_nil]
    constructor
    · intro h
      have hm : ('.' : Char) ∈ listSliceFrom [] (-1) := by
        rw [h]; exact List.mem_cons_self _ _
      exact absurd (listSliceFrom_subset _ _ hm) (List.not_mem_nil _)
    · intro h
      exact absurd h (List.cons_ne_nil _ _)
  | cons c L' ih =>
    by_cases hmem : ('.' : Char) ∈ L'
    · have hr : 0 ≤ lastIndexOfAux '.' L' := (lastIndexOfAux_nonneg_iff _ _).mpr hmem
      have hstep : lastIndexOfAux '.' (c :: L') = lastIndexOfAux '.' L' + 1 := by
        simp only [lastIndexOfAux]
        rw [if_pos hr]
      rw [hstep, listSliceFrom_cons _ _ _ hr, ih, List.suffix_cons_iff]
      constructor
      · exact Or.inr
      · rintro (heq | hsuf)
        · cases heq
          exact absurd hmem ht
        · exact hsuf
    · by_cases hc : c = '.'
      · subst hc
        have hr : lastIndexOfAux '.' L' < 0 := by
          by_contra hge
          push_neg at hge
          exact hmem ((lastIndexOfAux_nonneg_iff _ _).mp hge)
        have hstep : lastIndexOfAux '.' ('.' :: L') = 0 := by
          simp only [lastIndexOfAux]
          rw [if_neg (by omega)]
          simp
        rw [hstep, listSliceFrom_zero, List.suffix_cons_iff]
        constructor
        · intro h
          exact Or.inl h.symm
        · rintro (heq | hsuf)
          · exact heq.symm
          · exact absurd (hsuf.subset (List.mem_cons_self _ _)) hmem
      · have hnm : ('.' : Char) ∉ c :: L' := by
          intro hd
          rcases List.mem_cons.mp hd with h1 | h2
          · exact hc h1.symm
          · exact hmem h2
        constructor
        · intro h
          have hm : ('.' : Char) ∈
              listSliceFrom (c :: L') (lastIndexOfAux '.' (c :: L')) := by
            rw [h]; exact List.mem_cons_self _ _
          exact absurd (listSliceFrom_subset _ _ hm) hnm
        · intro h
          exact absurd (h.subset (List.mem_cons_self _ _)) hnm

/-- `isValidFile` accepts exactly when the configured extension is a suffix
of the lowercased file name, provided the extension starts with its only
dot. -/
lemma isValidFile_iff_suffix (accept : String) (t : List Char)
    (haccept : accept.data = '.' :: t) (ht : '.' ∉ t) (file : JsFile) :
    isValidFile accept file = true ↔ accept.data <:+ (jsToLower file.name).data := by
  unfold isValidFile jsSliceFrom jsLastIndexOf jsToLower
  rw [beq_iff_eq]
  constructor
  · intro h
    have hd : listSliceFrom (file.name.data.map Char.toLower)
        (lastIndexOfAux '.' file.name.data) = accept.data := congrArg String.data h
    rw [← lastIndexOfAux_map_toLower, haccept] at hd
    rw [haccept]
    exact (listSliceFrom_lastIndexOf_eq_iff t ht _).mp hd
  · intro h
    rw [haccept] at h
    have hd := (listSliceFrom_lastIndexOf_eq_iff t ht _).mpr h
    rw [lastIndexOfAux_map_toLower, ← haccept] at hd
    exact congrArg String.mk hd

/-! ### Claim theorems -/

/-- Claim C1 (code bug evidence): when the backend fetch resolves with a
non-success HTTP status (here 500) whose body still parses as JSON, the
health route returns the 200 success envelope with the backend body
embedded — not the 503 error envelope the claim (and the route's own test
for a backend 500) requires, because the handler never consults
`response.ok`. -/
theorem claim1_nonsuccess_status_yields_success_envelope :
    healthGET (.resolve ⟨false, 500,
        some (.obj [("error", .str "Internal server error")])⟩) =
      ⟨200, healthSuccessBody (.obj [("error", .str "Internal server error")])⟩ ∧
    (healthGET (.resolve ⟨false, 500,
        some (.obj [("error", .str "Internal server error")])⟩)).httpStatus ≠ 503 ∧
    healthGET .reject = ⟨503, healthErrorBody⟩ ∧
    healthGET (.resolve ⟨false, 500, none⟩) = ⟨503, healthErrorBody⟩ :=
  ⟨rfl, by decide, rfl, rfl⟩

/-- Claim C2 counterexample: with configured extension `".tar.gz"` the file
`"a.tar.gz"` ends with the extension (even case-sensitively), yet the
widget rejects it: the drop lands in the `error` state with the validation
message, refuting acceptance-iff-case-insensitive-suffix as stated for
every configured extension. -/
theorem claim2_counterexample :
    endsWithCI "a.tar.gz" ".tar.gz" = true ∧
    isValidFile ".tar.gz" ⟨"a.tar.gz"⟩ = false ∧
    (handleDrop ".tar.gz" initialDropZone [⟨"a.tar.gz"⟩]).1.state = .error ∧
    (handleDrop ".tar.gz" initialDropZone [⟨"a.tar.gz"⟩]).2.onError =
      ["Only .tar.gz files are accepted"] := by
  refine ⟨by decide, by decide, by decide, by decide⟩

/-- Claim C2 (amended): for configured extensions that begin with their
only dot and are already lowercase (the default `".json"` qualifies), the
widget accepts a file exactly when its name ends case-insensitively with
the extension; and whenever a first file is rejected, both the drop and
the input-change paths move to the `error` state, set the message
`Only <ext> files are accepted`, and invoke only the error callback with
that message. -/
theorem claim2_accept_characterisation (accept : String) (t : List Char)
    (file : JsFile) (rest : List JsFile) (m : DropZoneModel) (v : String)
    (haccept : accept.data = '.' :: t) (ht : '.' ∉ t)
    (hlower : ∀ c ∈ accept.data, Char.toLower c = c) :
    (isValidFile accept file = true ↔ endsWithCI file.name accept = true) ∧
    (isValidFile accept file = false →
      handleDrop accept m (file :: rest) =
        ({ m with state := .error, errorMessage := dropErrorMsg accept },
         { onFileSelected := [], onError := [dropErrorMsg accept] }) ∧
      handleFileInputChange accept m ⟨file :: rest, v⟩ =
        ({ m with state := .error, errorMessage := dropErrorMsg accept },
         ⟨file :: rest, v⟩,
         { onFileSelected := [], onError := [dropErrorMsg accept] })) := by
  constructor
  · have hacc : jsToLower accept = accept := congrArg String.mk
      ((List.map_congr_left hlower).trans (List.map_id _))
    rw [isValidFile_iff_suffix accept t haccept ht file]
    unfold endsWithCI
    rw [hacc]
    exact ⟨fun h => List.isSuffixOf_iff_suffix.mpr h,
           fun h => List.isSuffixOf_iff_suffix.mp h⟩
  · intro hinv
    constructor
    · simp [handleDrop, hinv]
    · simp [handleFileInputChange, hinv]

/-- Witness for claim C2's theorem at the default extension `".json"` and
the mixed-case file name `"DATA.JSON"`. -/
theorem claim2_witness :
    isValidFile ".json" ⟨"DATA.JSON"⟩ = true ↔
      endsWithCI "DATA.JSON" ".json" = true :=
  (claim2_accept_characterisation ".json" "json".data ⟨"DATA.JSON"⟩ []
    initialDropZone "" (by decide) (by decide) (by decide)).1

/-- Claim C3 counterexample: a reachable run in which, after a successful
upload, a Submit click while the lifecycle state is `success` issues
another upload call even though the state is neither `ready` nor `error`,
refuting issuance-iff-state-in-ready-or-error over all submit triggers. -/
theorem claim3_counterexample :
    handleFileSelected (initialHome Unit) (some ⟨"data.json"⟩) =
      ⟨some ⟨"data.json"⟩, .ready, "", none⟩ ∧
    handleSubmitClick (⟨some ⟨"data.json"⟩, .ready, "", none⟩ : HomeModel Unit) =
      (⟨some ⟨"data.json"⟩, .uploading, "", none⟩, true) ∧
    handleUploadSuccess
        (⟨some ⟨"data.json"⟩, .uploading, "", none⟩ : HomeModel Unit) () =
      ⟨some ⟨"data.json"⟩, .success, "", some ()⟩ ∧
    (handleSubmitClick
        (⟨some ⟨"data.json"⟩, .success, "", some ()⟩ : HomeModel Unit)).2 = true ∧
    ¬ (UploadStatus.success = .ready ∨ UploadStatus.success = .error) :=
  ⟨rfl, rfl, rfl, rfl, by decide⟩

/-- Claim C3 (amended): an Enter keypress issues an upload call exactly
when a file is selected and the lifecycle state is `ready` or `error`; a
Submit click issues one exactly when a file is selected and the state is
`ready`, `error` or `success`; and while the state is `uploading` both
triggers are no-ops, so no further call is issued until the pending one
resolves. -/
theorem claim3_submit_gating {R : Type} (m : HomeModel R) :
    ((handleEnterKey m).2 = true ↔
      m.selectedFile.isSome = true ∧
      (m.uploadStatus = .ready ∨ m.uploadStatus = .error)) ∧
    ((handleSubmitClick m).2 = true ↔
      m.selectedFile.isSome = true ∧
      (m.uploadStatus = .ready ∨ m.uploadStatus = .error ∨
       m.uploadStatus = .success)) ∧
    (m.uploadStatus = .uploading →
      handleEnterKey m = (m, false) ∧ handleSubmitClick m = (m, false)) := by
  refine ⟨?_, ?_, ?_⟩ <;>
    cases hf : m.selectedFile <;> cases hs : m.uploadStatus <;>
      simp [handleEnterKey, handleSubmitClick, handleUploadStart,
        submitButtonClickFires, submitButtonIsDisabled, hf, hs]

/-- Witness for claim C3's theorem: with a file selected and the state
`uploading`, an Enter keypress is a no-op. -/
theorem claim3_witness :
    handleEnterKey (⟨some ⟨"data.json"⟩, .uploading, "", none⟩ : HomeModel Unit) =
      (⟨some ⟨"data.json"⟩, .uploading, "", none⟩, false) :=
  ((claim3_submit_gating
      (⟨some ⟨"data.json"⟩, .uploading, "", none⟩ : HomeModel Unit)).2.2 rfl).1

/-- Claim C4 counterexample: a change event whose first file fails
validation leaves the input's `value` untouched (the handler returns
before the reset line), refuting the claim that the value is reset whether
the file is accepted or rejected. -/
theorem claim4_counterexample :
    (handleFileInputChange ".json" initialDropZone
        ⟨[⟨"notes.txt"⟩], "notes.txt"⟩).2.1.value = "notes.txt" ∧
    ("notes.txt" : String) ≠ "" ∧
    isValidFile ".json" ⟨"notes.txt"⟩ = false := by
  refine ⟨by decide, by decide, by decide⟩

/-- Claim C4 (amended): for a change event carrying at least one file, the
input element's `value` is reset to the empty string exactly when the
first file passes validation; when the file is rejected the input is left
unchanged. -/
theorem claim4_input_reset (accept : String) (m : DropZoneModel)
    (file : JsFile) (rest : List JsFile) (v : String) :
    (isValidFile accept file = true →
      (handleFileInputChange accept m ⟨file :: rest, v⟩).2.1.value = "") ∧
    (isValidFile accept file = false →
      (handleFileInputChange accept m ⟨file :: rest, v⟩).2.1 =
        ⟨file :: rest, v⟩) := by
  constructor <;> intro h <;>
    simp [handleFileInputChange, handleFileSelect, h]

/-- Witness for claim C4's theorem: accepting `"data.json"` resets the
value, rejecting `"notes.txt"` leaves the input unchanged. -/
theorem claim4_witness :
    (handleFileInputChange ".json" initialDropZone
        ⟨[⟨"data.json"⟩], "data.json"⟩).2.1.value = "" ∧
    (handleFileInputChange ".json" initialDropZone
        ⟨[⟨"notes.txt"⟩], "notes.txt"⟩).2.1 = ⟨[⟨"notes.txt"⟩], "notes.txt"⟩ :=
  ⟨(claim4_input_reset ".json" initialDropZone ⟨"data.json"⟩ [] "data.json").1
      (by decide),
   (claim4_input_reset ".json" initialDropZone ⟨"notes.txt"⟩ [] "notes.txt").2
      (by decide)⟩

/-- Claim C5: when the upload issued for the selected file fails, the
controller sets the lifecycle state to `error`, leaves the result cleared
(it was cleared when the upload started and the catch branch does not
touch it), and stores `Error: <failure message>`, falling back to
`Upload failed` when the thrown value carries no message. -/
theorem claim5_upload_failure {R : Type} (m : HomeModel R) (f : JsFile)
    (err : Option String) (hf : m.selectedFile = some f) :
    (handleUploadStart m).2 = true ∧
    (handleUploadFailure (handleUploadStart m).1 err).uploadStatus = .error ∧
    (handleUploadFailure (handleUploadStart m).1 err).result = none ∧
    (handleUploadFailure (handleUploadStart m).1 err).uploadMessage =
      "Error: " ++ err.getD "Upload failed" := by
  cases err <;>
    simp [handleUploadStart, hf, handleUploadFailure, uploadErrorMessage]

/-- Witness for claim C5's theorem at a ready state with no thrown
message. -/
theorem claim5_witness :
    (handleUploadFailure
      (handleUploadStart
        (⟨some ⟨"data.json"⟩, .ready, "", none⟩ : HomeModel Unit)).1
      none).uploadMessage = "Error: " ++ "Upload failed" :=
  (claim5_upload_failure (⟨some ⟨"data.json"⟩, .ready, "", none⟩ : HomeModel Unit)
    ⟨"data.json"⟩ none rfl).2.2.2

/-- Claim C6: the submit button's click callback can fire exactly in the
states `ready`, `error` and `success`, and the button is rendered disabled
in exactly the states `disabled` and `uploading`. -/
theorem claim6_button_gating (s : UploadStatus) :
    (submitButtonClickFires s = true ↔
      s = .ready ∨ s = .error ∨ s = .success) ∧
    (submitButtonIsDisabled s = true ↔ s = .disabled ∨ s = .uploading) := by
  cases s <;> simp [submitButtonClickFires, submitButtonIsDisabled]

/-- Claim C7: whenever the widget reports a file value, the controller
stores it as the selected file, sets the lifecycle state to `ready` when a
file is present and `disabled` otherwise, and clears both the message and
the result. -/
theorem claim7_file_selected {R : Type} (m : HomeModel R)
    (file : Option JsFile) :
    handleFileSelected m file =
      ⟨file, if file.isSome then .ready else .disabled, "", none⟩ := rfl

/-- Claim C8: all three client operations route their resolved response
through `handleResponse`, which on a non-ok response throws an `ApiError`
carrying the numeric status and the body read as text (falling back to
`Request failed` when reading fails), and on an ok response returns the
parsed JSON body. -/
theorem claim8_client_error_translation (apiUrl path : String) (f : JsFile)
    (r : ClientResponse) :
    ((apiGet apiUrl path r).2 = handleResponse r ∧
     (apiPost apiUrl path r).2 = handleResponse r ∧
     (uploadFile apiUrl path f r).2 = handleResponse r) ∧
    (r.ok = false →
      handleResponse r =
        .apiError (r.textResult.getD "Request failed") r.status) ∧
    (∀ body, r.ok = true → r.jsonResult = .ok body →
      handleResponse r = .success body) := by
  refine ⟨⟨rfl, rfl, rfl⟩, ?_, ?_⟩
  · intro h
    simp [handleResponse, h]
  · intro body hok hj
    simp [handleResponse, hok, hj]

/-- Witness for claim C8's theorem: a 503 response whose body cannot be
read as text fails with the fallback message. -/
theorem claim8_witness :
    handleResponse ⟨false, 503, none, .error "read error"⟩ =
      .apiError "Request failed" 503 :=
  (claim8_client_error_translation "http://localhost:8000" "/upload"
    ⟨"data.json"⟩ ⟨false, 503, none, .error "read error"⟩).2.1 rfl

/-- Claim C9: a rejected file triggers only the error callback — the
selection callback list is empty — so replaying the widget's callbacks
against the controller leaves the selected file, the lifecycle state, the
result, and the click-issues-upload outcome unchanged. -/
theorem claim9_invalid_file_frame {R : Type} (accept : String)
    (m : DropZoneModel) (file : JsFile) (rest : List JsFile) (v : String)
    (hm : HomeModel R) (hinv : isValidFile accept file = false) :
    (handleDrop accept m (file :: rest)).2.onFileSelected = [] ∧
    (handleDrop accept m (file :: rest)).2.onError = [dropErrorMsg accept] ∧
    (handleFileInputChange accept m ⟨file :: rest, v⟩).2.2.onFileSelected = [] ∧
    (handleFileInputChange accept m ⟨file :: rest, v⟩).2.2.onError =
      [dropErrorMsg accept] ∧
    (applyDropZoneCalls hm (handleDrop accept m (file :: rest)).2).selectedFile =
      hm.selectedFile ∧
    (applyDropZoneCalls hm (handleDrop accept m (file :: rest)).2).uploadStatus =
      hm.uploadStatus ∧
    (applyDropZoneCalls hm (handleDrop accept m (file :: rest)).2).result =
      hm.result ∧
    (handleSubmitClick
        (applyDropZoneCalls hm (handleDrop accept m (file :: rest)).2)).2 =
      (handleSubmitClick hm).2 := by
  refine ⟨?_, ?_, ?_, ?_, ?_, ?_, ?_, ?_⟩
  · simp [handleDrop, hinv]
  · simp [handleDrop, hinv]
  · simp [handleFileInputChange, hinv]
  · simp [handleFileInputChange, hinv]
  · simp [handleDrop, hinv, applyDropZoneCalls, handleDropZoneError]
  · simp [handleDrop, hinv, applyDropZoneCalls, handleDropZoneError]
  · simp [handleDrop, hinv, applyDropZoneCalls, handleDropZoneError]
  · cases hs : hm.uploadStatus <;> cases hf : hm.selectedFile <;>
      simp [handleDrop, hinv, applyDropZoneCalls, handleDropZoneError,
        handleSubmitClick, handleUploadStart, submitButtonClickFires,
        submitButtonIsDisabled, hs, hf]

/-- Witness for claim C9's theorem: dropping `"notes.txt"` on a widget
while the controller holds `"data.json"` in the `ready` state. -/
theorem claim9_witness :
    (applyDropZoneCalls
        (⟨some ⟨"data.json"⟩, .ready, "", none⟩ : HomeModel Unit)
        (handleDrop ".json" initialDropZone [⟨"notes.txt"⟩]).2).uploadStatus =
      UploadStatus.ready :=
  (claim9_invalid_file_frame ".json" initialDropZone ⟨"notes.txt"⟩ [] ""
    (⟨some ⟨"data.json"⟩, .ready, "", none⟩ : HomeModel Unit)
    (by decide)).2.2.2.2.2.1

/-- Claim C10: a drag-enter moves the widget to `dragging` from every
state and a following drag-leave lands in `idle`; neither handler invokes
any callback, so replaying their (empty) callbacks against the controller
leaves it exactly as it was — the parent still holds the previously
reported file. -/
theorem claim10_drag_hover {R : Type} (m : DropZoneModel)
    (hm : HomeModel R) :
    (handleDragEnter m).1.state = .dragging ∧
    (handleDragEnter m).2 = {} ∧
    (handleDragLeave (handleDragEnter m).1).1.state = .idle ∧
    (handleDragLeave (handleDragEnter m).1).2 = {} ∧
    (handleDragEnter m).1.fileName = m.fileName ∧
    applyDropZoneCalls hm (handleDragEnter m).2 = hm ∧
    applyDropZoneCalls hm (handleDragLeave (handleDragEnter m).1).2 = hm := by
  simp [handleDragEnter, handleDragLeave, applyDropZoneCalls]

end Engine
